import Mathlib

set_option maxRecDepth 4000

/-!
Shallow embedding of `src/Snow.py`, a pygame snowfall animation.

The program's only state is: three parallel lists built at startup
(`snow_list` of positions, `size_list` of radii, `color_list` of gray
triples), and three counters updated once per frame (`time_passed`,
`time_since`, `num_changed`).  Drawing, event polling and frame pacing are
external effects with no influence on this state and are not modelled.

Randomness: the program draws from Python's global `random` module.  We
model the random source as a stream `f : Nat → Nat` together with a cursor
`k : Nat` giving the index of the next draw; each call to
`random.randint(a, b)` (inclusive on both ends) or `random.randrange(a, b)`
(half-open) consumes one draw `f k` and reduces it into the corresponding
interval.  Draws are consumed in exactly the source's call order.
-/

namespace Snow

/-- Canvas width (`width = 700` in Snow.py, line 15). -/
def width : Int := 700

/-- Canvas height (`height = 500` in Snow.py, line 16). -/
def height : Int := 500

/-- Number of snowflakes (`flakes_amount = 200`, line 23). -/
def flakes_amount : Nat := 200

/-- Python `random.randint(a, b)`: both endpoints included.  One stream
draw `r` is reduced into the closed interval `[a, b]`. -/
def randint (r : Nat) (a b : Int) : Int := a + (r : Int) % (b - a + 1)

/-- Python `random.randrange(a, b)`: half-open.  One stream draw `r` is
reduced into `[a, b)`. -/
def randrange (r : Nat) (a b : Int) : Int := a + (r : Int) % (b - a)

/-- Radii built by the init loop (line 45): `size = random.randint(2,4)`.
Iteration `i` of the init loop consumes stream draws `4*i .. 4*i+3`, in
source order: size, x, y, colour. -/
def initSizes (f : Nat → Nat) : List Int :=
  (List.range flakes_amount).map fun i => randint (f (4 * i)) 2 4

/-- Positions built by the init loop (lines 47-49):
`x = random.randint(0, width)`, `y = random.randint(0, height)`,
`snow_list.append([x,y])`.  A position is the pair `(x, y)`. -/
def initSnow (f : Nat → Nat) : List (Int × Int) :=
  (List.range flakes_amount).map fun i =>
    (randint (f (4 * i + 1)) 0 width, randint (f (4 * i + 2)) 0 height)

/-- `createColour` (lines 40-42): `handle = random.randint(30, 255)`;
the colour appended is `[handle, handle, handle]`. -/
def createColour (r : Nat) : Int × Int × Int :=
  let handle := randint r 30 255
  (handle, handle, handle)

/-- Colours built by the init loop (line 50). -/
def initColors (f : Nat → Nat) : List (Int × Int × Int) :=
  (List.range flakes_amount).map fun i => createColour (f (4 * i + 3))

/-- `snow_half = int(len(snow_list)/2)` (line 52); `snow_list` has
`flakes_amount` elements after the init loop. -/
def snow_half : Nat := flakes_amount / 2

/-- Vertical recycle (lines 78-82): if the y coordinate exceeds
`height+3`, redraw `y = random.randrange(-50,-10)` then
`x = random.randrange(0, width-50)`, consuming two stream draws. -/
def recycleV (p : Int × Int) (f : Nat → Nat) (k : Nat) : (Int × Int) × Nat :=
  if p.2 > height + 3 then
    ((randrange (f (k + 1)) 0 (width - 50), randrange (f k) (-50) (-10)), k + 2)
  else (p, k)

/-- Horizontal recycle (lines 84-88): if the x coordinate exceeds
`width+3`, redraw `y = random.randrange(0, height-50)` then
`x = random.randrange(-50,-10)`, consuming two stream draws. -/
def recycleH (p : Int × Int) (f : Nat → Nat) (k : Nat) : (Int × Int) × Nat :=
  if p.1 > width + 3 then
    ((randrange (f (k + 1)) (-50) (-10), randrange (f k) 0 (height - 50)), k + 2)
  else (p, k)

/-- Per-particle body of `letItSnow` after the wind-override check
(lines 72-88): add the drift vector, then run the vertical recycle check,
then run the horizontal recycle check on the (possibly already recycled)
position.  Both checks are separate `if` statements in the source. -/
def updateFlake (pos : Int × Int) (x_wind y_wind : Int) (f : Nat → Nat) (k : Nat) :
    (Int × Int) × Nat :=
  let moved : Int × Int := (pos.1 + x_wind, pos.2 + y_wind)
  let v := recycleV moved f k
  recycleH v.1 f v.2

/-- One iteration of the loop body of `letItSnow` (lines 56-88), acting on
the accumulator `(snow_list, x_wind, rng cursor)` at particle index `i`.
The wind-override check (line 61): if
`time_since > (10000 + (10000 * num_changed))` the local `x_wind` is
reassigned to `100`; the check precedes the drift for each particle.
Drawing (line 57) has no effect on the state and is omitted. -/
def letItSnowStep (ts nc : Nat) (y_wind : Int) (f : Nat → Nat)
    (acc : List (Int × Int) × Int × Nat) (i : Nat) : List (Int × Int) × Int × Nat :=
  let xw : Int := if 10000 + 10000 * nc < ts then 100 else acc.2.1
  let r := updateFlake (acc.1.getD i (0, 0)) xw y_wind f acc.2.2
  (acc.1.set i r.1, xw, r.2)

/-- `letItSnow(firstSnow, lastSnow, x_wind, y_wind)` (lines 55-88):
`for snows in range(firstSnow, lastSnow)` run the loop body.  The globals
`time_since` and `num_changed` read by the override check, and the random
stream with its cursor, are passed explicitly.  Returns the updated
`snow_list`, the final local `x_wind`, and the new rng cursor. -/
def letItSnow (snow : List (Int × Int)) (firstSnow lastSnow : Nat) (x_wind y_wind : Int)
    (ts nc : Nat) (f : Nat → Nat) (k : Nat) : List (Int × Int) × Int × Nat :=
  (List.range' firstSnow (lastSnow - firstSnow)).foldl (letItSnowStep ts nc y_wind f)
    (snow, x_wind, k)

/-- Modelled from the spec: one iteration of the drift loop in which the
horizontal drift is the group constant `x_wind` for every particle — the
wind-override branch is absent.  Used to compare the code's `letItSnow`
against the spec's description of the per-group drift. -/
def letItSnowFixedStep (x_wind y_wind : Int) (f : Nat → Nat)
    (acc : List (Int × Int) × Nat) (i : Nat) : List (Int × Int) × Nat :=
  let r := updateFlake (acc.1.getD i (0, 0)) x_wind y_wind f acc.2
  (acc.1.set i r.1, r.2)

/-- Modelled from the spec: the drift loop with the constant group drift
vector `(x_wind, y_wind)` applied to every particle in the index range. -/
def letItSnowFixed (snow : List (Int × Int)) (firstSnow lastSnow : Nat)
    (x_wind y_wind : Int) (f : Nat → Nat) (k : Nat) : List (Int × Int) × Nat :=
  (List.range' firstSnow (lastSnow - firstSnow)).foldl (letItSnowFixedStep x_wind y_wind f)
    (snow, k)

/-- The whole mutable state of the program: the three parallel lists and
the three time counters, plus the rng cursor of the global random source. -/
structure SimState where
  snow : List (Int × Int)
  sizes : List Int
  colors : List (Int × Int × Int)
  time_passed : Nat
  time_since : Nat
  num_changed : Nat
  rk : Nat
  deriving Repr

/-- Timer update of the main loop (lines 101-104): read the clock into
`time_passed`, and `if (time_passed - time_since) >= 10000` advance
`time_since` by 10000 and `num_changed` by 1.  The subtraction is over
Python ints, so it is modelled in `Int`.  Returns the new
`(time_since, num_changed)`. -/
def tickUpdate (ts nc t : Nat) : Nat × Nat :=
  if (t : Int) - (ts : Int) ≥ 10000 then (ts + 10000, nc + 1) else (ts, nc)

/-- One iteration of the main loop (lines 91-118) at clock reading `t`:
the timer update, then `letItSnow(0, snow_half, 1, 2)` and
`letItSnow(snow_half, len(snow_list), 4, 4)`.  Screen fill, printing,
display flip and `clock.tick` have no effect on the state. -/
def frame (s : SimState) (t : Nat) (f : Nat → Nat) : SimState :=
  let u := tickUpdate s.time_since s.num_changed t
  let r1 := letItSnow s.snow 0 snow_half 1 2 u.1 u.2 f s.rk
  let r2 := letItSnow r1.1 snow_half r1.1.length 4 4 u.1 u.2 f r1.2.2
  { snow := r2.1, sizes := s.sizes, colors := s.colors,
    time_passed := t, time_since := u.1, num_changed := u.2, rk := r2.2.2 }

/-- Modelled from the spec: one frame in which every particle of the first
half receives drift `(1, 2)` and every particle of the second half receives
drift `(4, 4)`, unconditionally (no wind-override branch). -/
def frameFixed (s : SimState) (t : Nat) (f : Nat → Nat) : SimState :=
  let u := tickUpdate s.time_since s.num_changed t
  let r1 := letItSnowFixed s.snow 0 snow_half 1 2 f s.rk
  let r2 := letItSnowFixed r1.1 snow_half r1.1.length 4 4 f r1.2
  { snow := r2.1, sizes := s.sizes, colors := s.colors,
    time_passed := t, time_since := u.1, num_changed := u.2, rk := r2.2 }

/-- The program state right after the init loop (lines 23-52): the three
lists are populated from the first `4 * flakes_amount` stream draws, the
counters start at 0. -/
def initState (f : Nat → Nat) : SimState :=
  { snow := initSnow f, sizes := initSizes f, colors := initColors f,
    time_passed := 0, time_since := 0, num_changed := 0, rk := 4 * flakes_amount }

/-- Run the main loop over a list of successive clock readings, one per
frame. -/
def run (s : SimState) (ticks : List Nat) (f : Nat → Nat) : SimState :=
  ticks.foldl (fun a t => frame a t f) s

/-! ## Helper lemmas -/

theorem randrange_lb (r : Nat) {a b : Int} (h : a < b) : a ≤ randrange r a b := by
  have h1 : 0 ≤ (r : Int) % (b - a) := Int.emod_nonneg _ (by omega)
  unfold randrange; omega

theorem randrange_ub (r : Nat) {a b : Int} (h : a < b) : randrange r a b < b := by
  have h2 : (r : Int) % (b - a) < b - a := Int.emod_lt_of_pos _ (by omega)
  unfold randrange; omega

theorem randint_lb (r : Nat) {a b : Int} (h : a ≤ b) : a ≤ randint r a b := by
  have h1 : 0 ≤ (r : Int) % (b - a + 1) := Int.emod_nonneg _ (by omega)
  unfold randint; omega

theorem randint_ub (r : Nat) {a b : Int} (h : a ≤ b) : randint r a b ≤ b := by
  have h2 : (r : Int) % (b - a + 1) < b - a + 1 := Int.emod_lt_of_pos _ (by omega)
  unfold randint; omega

/-- Closed form of the per-particle update: drift, then exactly one of the
two recycles (or neither) takes effect, because a vertical reset puts `x`
in `[0, width-50)`, below `width + 3`, so the horizontal check that is
still evaluated afterwards cannot fire. -/
theorem updateFlake_eq (pos : Int × Int) (xw yw : Int) (f : Nat → Nat) (k : Nat) :
    updateFlake pos xw yw f k =
      if height + 3 < pos.2 + yw then
        ((randrange (f (k + 1)) 0 (width - 50), randrange (f k) (-50) (-10)), k + 2)
      else if width + 3 < pos.1 + xw then
        ((randrange (f (k + 1)) (-50) (-10), randrange (f k) 0 (height - 50)), k + 2)
      else ((pos.1 + xw, pos.2 + yw), k) := by
  have hx := randrange_ub (f (k + 1)) (a := 0) (b := width - 50) (by norm_num [width])
  simp only [updateFlake, recycleV, recycleH, gt_iff_lt]
  split_ifs <;> first
    | rfl
    | (exfalso; revert hx; norm_num [width] at *; omega)

/-- Evaluating `getD` on a list built by mapping over `List.range`. -/
theorem getD_map_range {α : Type} (n i : Nat) (g : Nat → α) (d : α) :
    ((List.range n).map g).getD i d = if i < n then g i else d := by
  by_cases h : i < n
  · rw [if_pos h, List.getD_eq_getElem _ _ (by simpa using h)]
    simp
  · rw [if_neg h, List.getD_eq_default]
    simpa using Nat.le_of_not_lt h

/-! ## Claim theorems about the per-particle update -/

/-- C6: after the drift is added, a particle whose y exceeds `height + 3`
gets y reset into `[-50, -10)` and x into `[0, width - 50)`; a particle
whose (current) x exceeds `width + 3` gets x reset into `[-50, -10)` and y
into `[0, height - 50)`; and both checks run for the same particle in the
same frame: the horizontal check is evaluated on the output of the
vertical one. -/
theorem recycle_ranges (pos : Int × Int) (xw yw : Int) (f : Nat → Nat) (k : Nat) :
    updateFlake pos xw yw f k
        = recycleH (recycleV (pos.1 + xw, pos.2 + yw) f k).1 f
            (recycleV (pos.1 + xw, pos.2 + yw) f k).2
    ∧ ((height + 3 < pos.2 + yw
          ∧ -50 ≤ (updateFlake pos xw yw f k).1.2 ∧ (updateFlake pos xw yw f k).1.2 < -10
          ∧ 0 ≤ (updateFlake pos xw yw f k).1.1 ∧ (updateFlake pos xw yw f k).1.1 < width - 50)
      ∨ (pos.2 + yw ≤ height + 3 ∧ width + 3 < pos.1 + xw
          ∧ -50 ≤ (updateFlake pos xw yw f k).1.1 ∧ (updateFlake pos xw yw f k).1.1 < -10
          ∧ 0 ≤ (updateFlake pos xw yw f k).1.2 ∧ (updateFlake pos xw yw f k).1.2 < height - 50)
      ∨ (pos.2 + yw ≤ height + 3 ∧ pos.1 + xw ≤ width + 3
          ∧ (updateFlake pos xw yw f k).1 = (pos.1 + xw, pos.2 + yw))) := by
  refine ⟨rfl, ?_⟩
  rw [updateFlake_eq]
  by_cases hv : height + 3 < pos.2 + yw
  · rw [if_pos hv]
    refine Or.inl ⟨hv, ?_, ?_, ?_, ?_⟩
    · exact randrange_lb _ (by norm_num)
    · exact randrange_ub _ (by norm_num)
    · exact randrange_lb _ (by norm_num [width])
    · exact randrange_ub _ (by norm_num [width])
  · rw [if_neg hv]
    by_cases hh : width + 3 < pos.1 + xw
    · rw [if_pos hh]
      refine Or.inr (Or.inl ⟨le_of_not_lt hv, hh, ?_, ?_, ?_, ?_⟩)
      · exact randrange_lb _ (by norm_num)
      · exact randrange_ub _ (by norm_num)
      · exact randrange_lb _ (by norm_num [height])
      · exact randrange_ub _ (by norm_num [height])
    · rw [if_neg hh]
      exact Or.inr (Or.inr ⟨le_of_not_lt hv, le_of_not_lt hh, rfl⟩)

/-- C7: after the per-particle update, the position satisfies
`y ≤ height + 3` (in particular, any just-reset y lies in `[-50, -10)`,
inside that bound) and `x ≤ width + 3`; and the recycle conditions are
strict: a particle sitting at exactly `y = height + 3` or `x = width + 3`
is not recycled by the corresponding check. -/
theorem flakes_stay_in_band (pos : Int × Int) (xw yw : Int) (f : Nat → Nat) (k : Nat)
    (x y : Int) :
    ((updateFlake pos xw yw f k).1.2 ≤ height + 3
      ∨ (-50 ≤ (updateFlake pos xw yw f k).1.2 ∧ (updateFlake pos xw yw f k).1.2 < -10))
    ∧ ((updateFlake pos xw yw f k).1.1 ≤ width + 3
      ∨ (-50 ≤ (updateFlake pos xw yw f k).1.1 ∧ (updateFlake pos xw yw f k).1.1 < -10))
    ∧ recycleV (x, height + 3) f k = ((x, height + 3), k)
    ∧ recycleH (width + 3, y) f k = ((width + 3, y), k) := by
  refine ⟨?_, ?_, ?_, ?_⟩
  · rw [updateFlake_eq]
    by_cases hv : height + 3 < pos.2 + yw
    · rw [if_pos hv]
      have h1 := randrange_ub (f k) (a := -50) (b := -10) (by norm_num)
      simp only []
      norm_num [height]
      omega
    · rw [if_neg hv]
      by_cases hh : width + 3 < pos.1 + xw
      · rw [if_pos hh]
        have h1 := randrange_ub (f k) (a := 0) (b := height - 50) (by norm_num [height])
        simp only []
        norm_num [height] at h1 ⊢
        omega
      · rw [if_neg hh]
        exact Or.inl (le_of_not_lt hv)
  · rw [updateFlake_eq]
    by_cases hv : height + 3 < pos.2 + yw
    · rw [if_pos hv]
      have h1 := randrange_ub (f (k + 1)) (a := 0) (b := width - 50) (by norm_num [width])
      simp only []
      norm_num [width] at h1 ⊢
      omega
    · rw [if_neg hv]
      by_cases hh : width + 3 < pos.1 + xw
      · rw [if_pos hh]
        have h1 := randrange_ub (f (k + 1)) (a := -50) (b := -10) (by norm_num)
        simp only []
        norm_num [width] at h1 ⊢
        omega
      · rw [if_neg hh]
        exact Or.inl (le_of_not_lt hh)
  · simp [recycleV]
  · simp [recycleH]

/-- C10 (amended): at most one recycle takes effect per particle per
frame.  When the vertical recycle fires, the reset x lies in
`[0, width - 50)`, below `width + 3`, so the horizontal check — though
still evaluated — leaves the particle unchanged; when the horizontal
recycle fires, the vertical one did not (its check left the state
untouched), and the reset x lies in `[-50, -10)` while the reset y lies in
`[0, height - 50)`. -/
theorem at_most_one_recycle (pos : Int × Int) (xw yw : Int) (f : Nat → Nat) (k : Nat) :
    (height + 3 < pos.2 + yw
        ∧ 0 ≤ (recycleV (pos.1 + xw, pos.2 + yw) f k).1.1
        ∧ (recycleV (pos.1 + xw, pos.2 + yw) f k).1.1 < width - 50
        ∧ updateFlake pos xw yw f k = recycleV (pos.1 + xw, pos.2 + yw) f k)
    ∨ (pos.2 + yw ≤ height + 3 ∧ width + 3 < pos.1 + xw
        ∧ recycleV (pos.1 + xw, pos.2 + yw) f k = ((pos.1 + xw, pos.2 + yw), k)
        ∧ -50 ≤ (updateFlake pos xw yw f k).1.1 ∧ (updateFlake pos xw yw f k).1.1 < -10
        ∧ 0 ≤ (updateFlake pos xw yw f k).1.2 ∧ (updateFlake pos xw yw f k).1.2 < height - 50)
    ∨ (pos.2 + yw ≤ height + 3 ∧ pos.1 + xw ≤ width + 3
        ∧ updateFlake pos xw yw f k = ((pos.1 + xw, pos.2 + yw), k)) := by
  by_cases hv : height + 3 < pos.2 + yw
  · refine Or.inl ⟨hv, ?_, ?_, ?_⟩
    · simp only [recycleV, gt_iff_lt, if_pos hv]
      exact randrange_lb _ (by norm_num [width])
    · simp only [recycleV, gt_iff_lt, if_pos hv]
      exact randrange_ub _ (by norm_num [width])
    · rw [updateFlake_eq, if_pos hv]
      simp only [recycleV, gt_iff_lt, if_pos hv]
  · by_cases hh : width + 3 < pos.1 + xw
    · refine Or.inr (Or.inl ⟨le_of_not_lt hv, hh, ?_, ?_⟩)
      · simp only [recycleV, gt_iff_lt, if_neg hv]
      · rw [updateFlake_eq, if_neg hv, if_pos hh]
        refine ⟨?_, ?_, ?_, ?_⟩
        · exact randrange_lb _ (by norm_num)
        · exact randrange_ub _ (by norm_num)
        · exact randrange_lb _ (by norm_num [height])
        · exact randrange_ub _ (by norm_num [height])
    · refine Or.inr (Or.inr ⟨le_of_not_lt hv, le_of_not_lt hh, ?_⟩)
      rw [updateFlake_eq, if_neg hv, if_neg hh]

/-- C10 counterexample: a particle at `(703, 100)` with drift `(1, 2)`
moves to `(704, 102)`; only the horizontal recycle fires, and (with an
all-zero random stream) the reset position is `(-50, 0)` — the reset y is
`0`, which is not in `[-50, -10)`: it is the reset x that lands there. -/
theorem horizontal_recycle_reset_y_cex :
    (updateFlake (703, 100) 1 2 (fun _ => 0) 0).1 = (-50, 0)
    ∧ width + 3 < (703 : Int) + 1
    ∧ (-10 : Int) ≤ (updateFlake (703, 100) 1 2 (fun _ => 0) 0).1.2 := by decide

/-! ## Claim theorems about initialization -/

/-- C8 counterexample: `x = random.randint(0, width)` includes the right
endpoint, so a particle can be created at `x = 700 = width`, outside the
half-open box `[0, width) × [0, height)` the claim asserts.  The stream
below makes the first particle's x draw reduce to 700. -/
theorem init_position_halfopen_cex :
    ((initSnow (fun n => if n = 1 then 700 else 0)).getD 0 (0, 0)).1 = 700
    ∧ width ≤ ((initSnow (fun n => if n = 1 then 700 else 0)).getD 0 (0, 0)).1 := by
  decide

/-- C8 (amended): the 200 particles have radius in `{2, 3, 4}`, position
in the closed box `[0, width] × [0, height]` (Python's `randint` includes
both endpoints), and a gray colour `r = g = b` with intensity in
`[30, 255]`. -/
theorem init_ranges (f : Nat → Nat) (i : Nat) :
    flakes_amount = 200
    ∧ (initSnow f).length = flakes_amount
    ∧ (initSizes f).length = flakes_amount
    ∧ (initColors f).length = flakes_amount
    ∧ 2 ≤ (initSizes f).getD i 2 ∧ (initSizes f).getD i 2 ≤ 4
    ∧ 0 ≤ ((initSnow f).getD i (0, 0)).1 ∧ ((initSnow f).getD i (0, 0)).1 ≤ width
    ∧ 0 ≤ ((initSnow f).getD i (0, 0)).2 ∧ ((initSnow f).getD i (0, 0)).2 ≤ height
    ∧ ((initColors f).getD i (30, 30, 30)).2.1 = ((initColors f).getD i (30, 30, 30)).1
    ∧ ((initColors f).getD i (30, 30, 30)).2.2 = ((initColors f).getD i (30, 30, 30)).1
    ∧ 30 ≤ ((initColors f).getD i (30, 30, 30)).1
    ∧ ((initColors f).getD i (30, 30, 30)).1 ≤ 255 := by
  refine ⟨rfl, by simp [initSnow], by simp [initSizes], by simp [initColors],
    ?_, ?_, ?_, ?_, ?_, ?_, ?_, ?_, ?_, ?_⟩ <;>
    simp only [initSizes, initSnow, initColors, getD_map_range, createColour] <;>
    split <;>
    first
      | rfl
      | exact randint_lb _ (by norm_num [width, height])
      | exact randint_ub _ (by norm_num [width, height])
      | norm_num [width, height]

/-! ## Helper lemmas about the timer and the main loop -/

theorem tickUpdate_mul (ts nc t : Nat) (h : ts = 10000 * nc) :
    (tickUpdate ts nc t).1 = 10000 * (tickUpdate ts nc t).2 := by
  unfold tickUpdate
  split <;> simp <;> omega

theorem tickUpdate_nc_le (ts nc t : Nat) : (tickUpdate ts nc t).2 ≤ nc + 1 := by
  unfold tickUpdate
  split <;> simp

theorem tickUpdate_ts_le (ts nc t : Nat) : ts ≤ (tickUpdate ts nc t).1 := by
  unfold tickUpdate
  split <;> simp

theorem tickUpdate_ts_le_t (ts nc t : Nat) (h : ts ≤ t) : (tickUpdate ts nc t).1 ≤ t := by
  unfold tickUpdate
  split
  · next hc => omega
  · simpa using h

theorem frame_time_since (s : SimState) (t : Nat) (f : Nat → Nat) :
    (frame s t f).time_since = (tickUpdate s.time_since s.num_changed t).1 := by
  simp only [frame]

theorem frame_num_changed (s : SimState) (t : Nat) (f : Nat → Nat) :
    (frame s t f).num_changed = (tickUpdate s.time_since s.num_changed t).2 := by
  simp only [frame]

theorem frame_time_passed (s : SimState) (t : Nat) (f : Nat → Nat) :
    (frame s t f).time_passed = t := by
  simp only [frame]

theorem frame_sizes (s : SimState) (t : Nat) (f : Nat → Nat) :
    (frame s t f).sizes = s.sizes := by
  simp only [frame]

theorem frame_colors (s : SimState) (t : Nat) (f : Nat → Nat) :
    (frame s t f).colors = s.colors := by
  simp only [frame]

theorem run_nil (s : SimState) (f : Nat → Nat) : run s [] f = s := rfl

theorem run_cons (s : SimState) (t : Nat) (l : List Nat) (f : Nat → Nat) :
    run s (t :: l) f = run (frame s t f) l f := by
  simp only [run, List.foldl_cons]

theorem run_append (s : SimState) (l1 l2 : List Nat) (f : Nat → Nat) :
    run s (l1 ++ l2) f = run (run s l1 f) l2 f := by
  simp [run, List.foldl_append]

theorem run_sizes (f : Nat → Nat) (l : List Nat) :
    ∀ s : SimState, (run s l f).sizes = s.sizes := by
  induction l with
  | nil => intro s; rfl
  | cons t l ih => intro s; rw [run_cons, ih, frame_sizes]

theorem run_colors (f : Nat → Nat) (l : List Nat) :
    ∀ s : SimState, (run s l f).colors = s.colors := by
  induction l with
  | nil => intro s; rfl
  | cons t l ih => intro s; rw [run_cons, ih, frame_colors]

/-- The main-loop invariant behind the dead override branch: `time_since`
always equals `10000 * num_changed`, because both start at 0 and are only
ever advanced together, by `10000` and by `1`. -/
theorem run_ts_eq_mul (f : Nat → Nat) (l : List Nat) :
    ∀ s : SimState, s.time_since = 10000 * s.num_changed →
      (run s l f).time_since = 10000 * (run s l f).num_changed := by
  induction l with
  | nil => intro s h; exact h
  | cons t l ih =>
      intro s h
      rw [run_cons]
      exact ih _ (by rw [frame_time_since, frame_num_changed]; exact tickUpdate_mul _ _ _ h)

theorem run_ts_mono (f : Nat → Nat) (l : List Nat) :
    ∀ s : SimState, s.time_since ≤ (run s l f).time_since := by
  induction l with
  | nil => intro s; exact Nat.le_refl _
  | cons t l ih =>
      intro s
      rw [run_cons]
      exact Nat.le_trans (by rw [frame_time_since]; exact tickUpdate_ts_le _ _ _) (ih _)

/-- With a non-decreasing clock, `time_since` never exceeds the current
clock reading `time_passed`. -/
theorem run_ts_le_tp (f : Nat → Nat) (l : List Nat) :
    ∀ s : SimState, s.time_since ≤ s.time_passed →
      List.Chain (· ≤ ·) s.time_passed l →
      (run s l f).time_since ≤ (run s l f).time_passed := by
  induction l with
  | nil => intro s h _; exact h
  | cons t l ih =>
      intro s h hc
      rcases hc with _ | ⟨hst, hc⟩
      rw [run_cons]
      refine ih _ ?_ ?_
      · rw [frame_time_since, frame_time_passed]
        exact tickUpdate_ts_le_t _ _ _ (Nat.le_trans h hst)
      · rw [frame_time_passed]
        exact hc

/-- When the override condition is false, the loop of `letItSnow` never
reassigns its local `x_wind`, and the whole loop coincides with the
fixed-drift loop. -/
theorem foldl_step_fixed (ts nc : Nat) (h : ts ≤ 10000 + 10000 * nc) (yw : Int)
    (f : Nat → Nat) (l : List Nat) :
    ∀ (snow : List (Int × Int)) (xw : Int) (k : Nat),
      l.foldl (letItSnowStep ts nc yw f) (snow, xw, k)
        = ((l.foldl (letItSnowFixedStep xw yw f) (snow, k)).1, xw,
           (l.foldl (letItSnowFixedStep xw yw f) (snow, k)).2) := by
  have h' : ¬ 10000 + 10000 * nc < ts := Nat.not_lt.mpr h
  induction l with
  | nil => intro snow xw k; rfl
  | cons i l ih =>
      intro snow xw k
      simp only [List.foldl_cons]
      have hstep : letItSnowStep ts nc yw f (snow, xw, k) i
          = (snow.set i (updateFlake (snow.getD i (0, 0)) xw yw f k).1, xw,
             (updateFlake (snow.getD i (0, 0)) xw yw f k).2) := by
        simp [letItSnowStep, if_neg h']
      rw [hstep, ih]
      rfl

theorem letItSnow_eq_fixed (snow : List (Int × Int)) (a b : Nat) (xw yw : Int)
    (ts nc : Nat) (f : Nat → Nat) (k : Nat) (h : ts ≤ 10000 + 10000 * nc) :
    letItSnow snow a b xw yw ts nc f k
      = ((letItSnowFixed snow a b xw yw f k).1, xw, (letItSnowFixed snow a b xw yw f k).2) :=
  foldl_step_fixed ts nc h yw f _ snow xw k

/-- Any state with `time_since = 10000 * num_changed` steps identically
under the code's frame and the fixed-drift frame. -/
theorem frame_eq_frameFixed (s : SimState) (t : Nat) (f : Nat → Nat)
    (h : s.time_since = 10000 * s.num_changed) :
    frame s t f = frameFixed s t f := by
  have h1 := tickUpdate_mul s.time_since s.num_changed t h
  have h2 : (tickUpdate s.time_since s.num_changed t).1
      ≤ 10000 + 10000 * (tickUpdate s.time_since s.num_changed t).2 := by omega
  simp only [frame, frameFixed]
  rw [letItSnow_eq_fixed _ _ _ _ _ _ _ _ _ h2]
  rw [letItSnow_eq_fixed _ _ _ _ _ _ _ _ _ h2]

/-! ## Claim theorems about the main loop -/

/-- C2: in every reachable state, `time_since = 10000 * num_changed`, so
the override condition `time_since > 10000 + 10000 * num_changed` inside
`letItSnow` is false, the branch setting `x_wind` to 100 is unreachable,
and every frame behaves exactly like the fixed-drift frame in which the
first half of the particles drifts by `(1, 2)` and the second half by
`(4, 4)`. -/
theorem override_branch_dead (f : Nat → Nat) (ticks : List Nat) (t : Nat) :
    (run (initState f) ticks f).time_since
        = 10000 * (run (initState f) ticks f).num_changed
    ∧ (run (initState f) ticks f).time_since
        ≤ 10000 + 10000 * (run (initState f) ticks f).num_changed
    ∧ frame (run (initState f) ticks f) t f = frameFixed (run (initState f) ticks f) t f := by
  have h := run_ts_eq_mul f ticks (initState f) rfl
  exact ⟨h, by omega, frame_eq_frameFixed _ _ _ h⟩

/-- C1 counterexample: after a single frame at clock reading 25000, the
cumulative elapsed time (25000) exceeds `10000 * (1 + drift_change_count)`
(= 20000), yet the first particle — created at `(0, 0)` under the all-zero
stream — moved to `(1, 2)`: its horizontal drift was the group constant 1,
which is less than the override value 100.  The code keys the override to
`time_since`, not to the cumulative elapsed time. -/
theorem cumulative_override_cex :
    10000 * (1 + (run (initState (fun _ => 0)) [25000] (fun _ => 0)).num_changed)
        < (run (initState (fun _ => 0)) [25000] (fun _ => 0)).time_passed
    ∧ (initState (fun _ => 0)).snow.getD 0 (0, 0) = (0, 0)
    ∧ (run (initState (fun _ => 0)) [25000] (fun _ => 0)).snow.getD 0 (0, 0) = (1, 2)
    ∧ (1 : Int) < 100 := by decide

/-- C1 (amended): the override is keyed to `time_since`, not to the
cumulative elapsed time, and in every reachable state — also after the
next frame's timer update, at any clock reading `t` — the condition
`time_since > 10000 + 10000 * num_changed` is false, so a `letItSnow` call
of that frame returns its `x_wind` argument unchanged: no particle's
horizontal drift is ever forced to 100. -/
theorem wind_override_never_fires (f : Nat → Nat) (ticks : List Nat)
    (t a b k : Nat) (xw yw : Int) :
    (tickUpdate (run (initState f) ticks f).time_since
          (run (initState f) ticks f).num_changed t).1
        ≤ 10000 + 10000 * (tickUpdate (run (initState f) ticks f).time_since
          (run (initState f) ticks f).num_changed t).2
    ∧ (letItSnow (run (initState f) ticks f).snow a b xw yw
          (tickUpdate (run (initState f) ticks f).time_since
            (run (initState f) ticks f).num_changed t).1
          (tickUpdate (run (initState f) ticks f).time_since
            (run (initState f) ticks f).num_changed t).2 f k).2.1 = xw := by
  have h := run_ts_eq_mul f ticks (initState f) rfl
  have h1 := tickUpdate_mul (run (initState f) ticks f).time_since
    (run (initState f) ticks f).num_changed t h
  have h2 : (tickUpdate (run (initState f) ticks f).time_since
      (run (initState f) ticks f).num_changed t).1
      ≤ 10000 + 10000 * (tickUpdate (run (initState f) ticks f).time_since
        (run (initState f) ticks f).num_changed t).2 := by omega
  refine ⟨h2, ?_⟩
  rw [letItSnow_eq_fixed _ _ _ _ _ _ _ _ _ h2]

/-- A non-decreasing list of naturals, read as a chain from 0. -/
theorem chain_zero_of_chain' (l : List Nat) (h : List.Chain' (· ≤ ·) l) :
    List.Chain (· ≤ ·) 0 l := by
  cases l with
  | nil => exact List.Chain.nil
  | cons t l => exact List.Chain.cons (Nat.zero_le t) h

/-- C3: across any run under a non-decreasing clock, `time_since` is a
multiple of the interval 10000, never exceeds `time_passed`, and is
non-decreasing from any prefix of the run to the whole run. -/
theorem time_since_invariants (f : Nat → Nat) (l1 l2 : List Nat)
    (h : List.Chain' (· ≤ ·) (l1 ++ l2)) :
    10000 ∣ (run (initState f) (l1 ++ l2) f).time_since
    ∧ (run (initState f) (l1 ++ l2) f).time_since
        ≤ (run (initState f) (l1 ++ l2) f).time_passed
    ∧ (run (initState f) l1 f).time_since ≤ (run (initState f) (l1 ++ l2) f).time_since := by
  refine ⟨⟨_, run_ts_eq_mul f (l1 ++ l2) (initState f) rfl⟩, ?_, ?_⟩
  · exact run_ts_le_tp f (l1 ++ l2) (initState f) (Nat.le_refl 0) (chain_zero_of_chain' _ h)
  · rw [run_append]
    exact run_ts_mono f l2 _

/-- Witness for C3 at a concrete run: clock readings 400 then 10500. -/
theorem time_since_invariants_witness :
    List.Chain' (· ≤ ·) ([400] ++ [10500])
    ∧ (10000 ∣ (run (initState (fun _ => 0)) ([400] ++ [10500]) (fun _ => 0)).time_since
      ∧ (run (initState (fun _ => 0)) ([400] ++ [10500]) (fun _ => 0)).time_since
          ≤ (run (initState (fun _ => 0)) ([400] ++ [10500]) (fun _ => 0)).time_passed
      ∧ (run (initState (fun _ => 0)) [400] (fun _ => 0)).time_since
          ≤ (run (initState (fun _ => 0)) ([400] ++ [10500]) (fun _ => 0)).time_since) :=
  ⟨by simp, time_since_invariants (fun _ => 0) [400] [10500] (by simp)⟩

/-- C4: starting from `time_since = 0`, `num_changed = 0`, a frame at
clock reading 9999 changes neither counter, and a following frame at
clock reading 10001 sets `time_since` to 10000 and `num_changed` to 1. -/
theorem timer_threshold_scenario (f : Nat → Nat) :
    (run (initState f) [9999] f).time_since = 0
    ∧ (run (initState f) [9999] f).num_changed = 0
    ∧ (run (initState f) [9999, 10001] f).time_since = 10000
    ∧ (run (initState f) [9999, 10001] f).num_changed = 1 := by
  refine ⟨?_, ?_, ?_, ?_⟩ <;>
    simp [run_cons, run_nil, frame_time_since, frame_num_changed, tickUpdate, initState]

/-- C5: a single frame increments `num_changed` by at most 1, no matter
how large the clock reading `t` is. -/
theorem num_changed_step_le (s : SimState) (t : Nat) (f : Nat → Nat) :
    (frame s t f).num_changed ≤ s.num_changed + 1 := by
  rw [frame_num_changed]
  exact tickUpdate_nc_le _ _ _

/-- C9: across any run, the radii and colours are exactly the ones created
at initialization — the loop never mutates them — and each frame moves the
first half of the particles by the drift vector `(1, 2)` and the second
half by `(4, 4)`, as in the fixed-drift frame. -/
theorem groups_and_immutable_attrs (f : Nat → Nat) (ticks : List Nat) (t : Nat) :
    (run (initState f) ticks f).sizes = initSizes f
    ∧ (run (initState f) ticks f).colors = initColors f
    ∧ (frame (run (initState f) ticks f) t f).sizes = (run (initState f) ticks f).sizes
    ∧ (frame (run (initState f) ticks f) t f).colors = (run (initState f) ticks f).colors
    ∧ (frame (run (initState f) ticks f) t f).snow
        = (frameFixed (run (initState f) ticks f) t f).snow := by
  have h := run_ts_eq_mul f ticks (initState f) rfl
  refine ⟨run_sizes f ticks (initState f), run_colors f ticks (initState f),
    frame_sizes _ _ _, frame_colors _ _ _, ?_⟩
  rw [frame_eq_frameFixed _ _ _ h]

end Snow
